import Mathlib

/-!
Verification of the fdb-viewer data-access and export engine.

This file gives a shallow embedding of `src/main.rs` of the fdb-viewer
repository: the field materializer (`RefField::from`, `SqliteVal::to_sql`),
the paginated row window (`display_table`), the paging state machine
(`set_paging` and the next/previous button handlers), and the relational
export engine (`try_export_db`), together with theorems checking the
specification's claims against these definitions.

Modelling conventions:
- The external binary-format library (crate `assembly_data`) is an external
  collaborator: its `Field`, `Table`, `Database` interface is modelled as
  plain data (a table is its name, its columns and the list of rows its
  forward iterator yields, in iteration order).
- Delayed-decode strings are modelled by the string they decode to; the
  decoding itself is owned by the external library.
- 32-bit floats are only ever moved, never computed with, so a float value
  is modelled by its raw bit pattern.
- SQLite is modelled by its committed state: an association list from table
  name to the list of inserted rows.  Statement execution may fail for
  environmental reasons (disk full, ...), modelled by an oracle saying which
  execution step fails.  A Rust `panic!`/`unwrap` failure is modelled as
  `Option.none`.
-/

namespace FdbViewer

/-- A 32-bit float, represented by its raw bit pattern.  The program never
performs float arithmetic: float fields are only moved from the source
database into the display grid or the SQLite binding (where the f32 → f64
widening is exact), so the bit pattern is all that matters. -/
structure F32 where
  bits : Nat
deriving DecidableEq, Repr

/-- A delayed-decode string slice borrowed from the database buffer
(`assembly_data`'s latin-1 slices).  The external library's `decode`
produces an owned string; we model the slice by the string it decodes to. -/
structure FdbStr where
  decoded : String
deriving DecidableEq, Repr

/-- The external library's `decode`: produce the owned decoded string. -/
def FdbStr.decode (s : FdbStr) : String := s.decoded

/-- `assembly_data::fdb::align::Field`: one borrowed, tagged cell value. -/
inductive Field where
  | Nothing : Field
  | Integer (i : Int) : Field
  | Float (f : F32) : Field
  | Text (s : FdbStr) : Field
  | Boolean (b : Bool) : Field
  | BigInt (i : Int) : Field
  | VarChar (s : FdbStr) : Field
deriving DecidableEq, Repr

/-- `assembly_data::fdb::core::ValueType`: a column's declared value kind. -/
inductive ValueType where
  | Nothing : ValueType
  | Integer : ValueType
  | Float : ValueType
  | Text : ValueType
  | Boolean : ValueType
  | BigInt : ValueType
  | VarChar : ValueType
  | Unknown (k : Nat) : ValueType
deriving DecidableEq, Repr

/-- A column: a name and a declared value kind. -/
structure Column where
  name : String
  value_type : ValueType
deriving DecidableEq, Repr

/-- A row: the ordered fields its field iterator yields. -/
structure Row where
  fields : List Field
deriving DecidableEq, Repr

/-- A table: its name, ordered columns, and the ordered rows its forward
row iterator yields. -/
structure Table where
  name : String
  columns : List Column
  rows : List Row
deriving DecidableEq, Repr

/-- `Table::column_count`. -/
def Table.column_count (t : Table) : Nat := t.columns.length

/-- A database handle: the ordered table catalog. -/
structure Database where
  tables : List Table
deriving DecidableEq, Repr

/-- `Tables::by_name` of the external library, as the spec describes it:
resolve a table by exact name equality, first match wins. -/
def Database.tables_by_name (db : Database) (n : String) : Option Table :=
  db.tables.find? (fun t => t.name = n)

/-! ## SQLite values and the export-side materializer (`SqliteVal::to_sql`) -/

/-- `rusqlite::types::Value`, restricted to the variants the program
produces. -/
inductive SqlValue where
  | Null : SqlValue
  | Integer (i : Int) : SqlValue
  | Real (f : F32) : SqlValue
  | Text (s : String) : SqlValue
deriving DecidableEq, Repr

/-- `impl ToSql for SqliteVal` in `main.rs`: materialize one borrowed field
into an owned SQLite value. -/
def SqliteVal.to_sql (f : Field) : SqlValue :=
  match f with
  | Field.Nothing => SqlValue.Null
  | Field.Integer i => SqlValue.Integer i
  | Field.Float f => SqlValue.Real f
  | Field.Text s => SqlValue.Text s.decode
  | Field.Boolean b => SqlValue.Integer (if b then 1 else 0)
  | Field.BigInt i => SqlValue.Integer i
  | Field.VarChar b => SqlValue.Text b.decode

/-- `SqliteRow`: binding a whole row = materializing each field in order. -/
def bind_row (r : Row) : List SqlValue := r.fields.map SqliteVal.to_sql

/-! ## Display-side materializer (`RefField::from`) -/

/-- `RefField` in `main.rs`: an owned, self-contained display value. -/
inductive RefField where
  | Integer (i : Int) : RefField
  | Float (f : F32) : RefField
  | Text (s : String) : RefField
  | Boolean (b : Bool) : RefField
  | BigInt (i : Int) : RefField
  | VarChar (s : String) : RefField
deriving DecidableEq, Repr

/-- `RefField::from` in `main.rs` (`from` is a Lean keyword, hence
`fromField`): materialize a borrowed field; an absent field materializes
to nothing. -/
def RefField.fromField (f : Field) : Option RefField :=
  match f with
  | Field.Nothing => none
  | Field.Integer iv => some (RefField.Integer iv)
  | Field.Float fv => some (RefField.Float fv)
  | Field.Text tv => some (RefField.Text tv.decode)
  | Field.Boolean bv => some (RefField.Boolean bv)
  | Field.BigInt iv => some (RefField.BigInt iv)
  | Field.VarChar vv => some (RefField.VarChar vv.decode)

/-! ## The paginated row window (`display_table`) -/

/-- An emitted grid row: the column indices at which values were bound
(`gtidx`) and the bound values in the same order (`gtval`, which are the
entries of `buffer` in order). -/
structure StoreRow where
  indices : List Nat
  values : List RefField
deriving DecidableEq, Repr

/-- The GTK `TreeStore`, modelled by its list of top-level rows in order;
`insert_with_values(None, None, ..)` appends, `clear` empties it. -/
structure TreeStore where
  rows : List StoreRow
deriving DecidableEq, Repr

/-- Rust's `Range<usize>`: a half-open interval (`end` is a Lean keyword,
hence `stop`). -/
structure Range where
  start : Nat
  stop : Nat
deriving DecidableEq, Repr

/-- `Range::contains`. -/
def Range.contains (r : Range) (n : Nat) : Bool :=
  decide (r.start ≤ n) && decide (n < r.stop)

/-- The first inner loop of `display_table`: enumerate the fields of a row
from index `i`, materialize each through `RefField::from`, and keep, for the
present fields only, the column index (`gtidx`) and the value (`buffer`). -/
def collect_fields (i : Nat) (fs : List Field) : List (Nat × RefField) :=
  match fs with
  | [] => []
  | f :: rest =>
    match RefField.fromField f with
    | some r => (i, r) :: collect_fields (i + 1) rest
    | none => collect_fields (i + 1) rest

/-- The per-row body of `display_table`: the grid row inserted via
`insert_with_values(None, None, &gtidx, &gtval)`. -/
def displayRow (row : Row) : StoreRow :=
  let pres := collect_fields 0 row.fields
  { indices := pres.map Prod.fst, values := pres.map Prod.snd }

/-- The row loop of `display_table`: walk the whole row iterator with a
running `count`, skipping rows whose index is outside `range` and appending
a grid row for each row inside it.  Note the loop never breaks early: it
runs to iterator exhaustion. -/
def display_loop (r : Range) (rows : List Row) (count : Nat)
    (acc : List StoreRow) : List StoreRow × Nat :=
  match rows with
  | [] => (acc, count)
  | row :: rest =>
    if r.contains count then
      display_loop r rest (count + 1) (acc ++ [displayRow row])
    else
      display_loop r rest (count + 1) acc

/-- `display_table` in `main.rs`: clear the destination store, then scan the
table's row iterator from the beginning, emitting the rows whose index lies
in `range`; return the updated store and the final `count`.  The initial
contents of `table_content_store` are discarded by `clear()`; `col_count`
is only used for buffer capacity. -/
def display_table (table_content_store : TreeStore) (col_count : Nat)
    (table : Table) (range : Range) : TreeStore × Nat :=
  let res := display_loop range table.rows 0 []
  ({ rows := res.1 }, res.2)

/-- The grid rows a window `[start, stop)` of a table materializes. -/
def windowRows (t : Table) (r : Range) : List StoreRow :=
  ((t.rows.drop r.start).take (r.stop - r.start)).map displayRow

/-! ## Paging state machine (`set_paging`, the button handlers) -/

/-- The `Paging` struct in `main.rs`. -/
structure Paging where
  num_pages : Nat
  current : Nat
deriving DecidableEq, Repr

/-- The `TablePage` struct in `main.rs`: the selected table's name and the
tree store displaying it. -/
structure TablePage where
  name : String
  store : TreeStore
deriving DecidableEq, Repr

/-- The mutable state the paging handlers in `main` touch: the open
database (`database_memmap`, reopened as `Database::new(mmap)` on each
event), the `paging` and `page` cells, and the relevant widget state. -/
structure UIState where
  db : Database
  paging : Option Paging
  page : Option TablePage
  button_box_paging_visible : Bool
  label_page : String
  button_next_sensitive : Bool
  button_previous_sensitive : Bool
deriving DecidableEq, Repr

/-- The `set_paging` closure in `main`: store the new paging state and,
when it is present, update the page label and enable/disable the
next/previous buttons at the boundaries. -/
def set_paging (st : UIState) (new : Option Paging) : UIState :=
  match new with
  | some p =>
    { st with
      paging := some p
      button_box_paging_visible := true
      label_page := toString (p.current + 1) ++ "/" ++ toString p.num_pages
      button_next_sensitive := decide (p.current + 1 < p.num_pages)
      button_previous_sensitive := decide (0 < p.current) }
  | none =>
    { st with paging := none, button_box_paging_visible := false }

/-- The body of the `button_previous.connect_clicked` closure.  `none`
models a Rust panic: the `unwrap()` on the table lookup, and the checked
`usize` subtraction `paging.current - 1` underflowing at page 0 (both
unreachable through the UI, because the button is insensitive then). -/
def button_previous_handler (st : UIState) : Option UIState :=
  match st.page, st.paging with
  | some pg, some paging =>
    match st.db.tables_by_name pg.name with
    | none => none
    | some table =>
      if paging.current = 0 then none
      else
        let current := paging.current - 1
        let new_min := current * 1024
        let new_max := new_min + 1024
        let res := display_table pg.store table.column_count table
          { start := new_min, stop := new_max }
        let st1 := { st with page := some { name := pg.name, store := res.1 } }
        some (set_paging st1 (some { num_pages := paging.num_pages, current := current }))
  | _, _ => some st

/-- The body of the `button_next.connect_clicked` closure; `none` models
the `unwrap()` panic on the table lookup. -/
def button_next_handler (st : UIState) : Option UIState :=
  match st.page, st.paging with
  | some pg, some paging =>
    match st.db.tables_by_name pg.name with
    | none => none
    | some table =>
      let current := paging.current + 1
      let new_min := current * 1024
      let new_max := new_min + 1024
      let res := display_table pg.store table.column_count table
        { start := new_min, stop := new_max }
      let st1 := { st with page := some { name := pg.name, store := res.1 } }
      some (set_paging st1 (some { num_pages := paging.num_pages, current := current }))
  | _, _ => some st

/-- A click on the previous-page button.  GTK delivers the `clicked` signal
only to sensitive widgets, so when `set_paging` has disabled the button the
click has no effect at all. -/
def button_previous_click (st : UIState) : Option UIState :=
  if st.button_previous_sensitive then button_previous_handler st else some st

/-- A click on the next-page button (same sensitivity gate). -/
def button_next_click (st : UIState) : Option UIState :=
  if st.button_next_sensitive then button_next_handler st else some st

/-- The paging computation in the `connect_row_selected` closure: build a
fresh (empty) tree store, display window `[0, 1024)` of the freshly
resolved table, and derive `num_pages` from the returned scan count:
`num_pages = max / 1024 + 1`, `current = 0`.  Returns the paging state and
the populated store. -/
def select_table_paging (t : Table) : Paging × TreeStore :=
  let table_content_store : TreeStore := { rows := [] }
  let res := display_table table_content_store t.column_count t
    { start := 0, stop := 1024 }
  ({ num_pages := res.2 / 1024 + 1, current := 0 }, res.1)

/-! ## Relational export engine (`try_export_db`) -/

/-- The SQL column type the export DDL assigns to a source column kind
(the `match col.value_type()` in `try_export_db`); `none` is the `panic!()`
on an unrecognized kind. -/
def sql_type (v : ValueType) : Option String :=
  match v with
  | ValueType.Nothing => some "NULL"
  | ValueType.Integer => some "INTEGER"
  | ValueType.Float => some "REAL"
  | ValueType.Text => some "TEXT"
  | ValueType.Boolean => some "INTEGER"
  | ValueType.BigInt => some "INTEGER"
  | ValueType.VarChar => some "BLOB"
  | ValueType.Unknown _ => none

/-- One column declaration inside the generated CREATE TABLE statement:
`    [name] TYPE`. -/
def column_decl (c : Column) : Option String :=
  (sql_type c.value_type).map (fun t => "    [" ++ c.name ++ "] " ++ t)

/-- The CREATE TABLE statement `try_export_db` builds for one table
(successive column declarations are separated by `,\n`); `none` is the
panic on an unrecognized column kind. -/
def create_query (t : Table) : Option String :=
  (t.columns.mapM column_decl).map (fun decls =>
    "CREATE TABLE IF NOT EXISTS \"" ++ t.name ++ "\"\n(\n"
      ++ String.intercalate ",\n" decls ++ ");")

/-- The parameterized INSERT statement `try_export_db` builds for one
table.  Note the code pushes `?1` unconditionally and then appends
`, ?i` for `i` in `2..=column_count`. -/
def insert_query (t : Table) : String :=
  "INSERT INTO \"" ++ t.name ++ "\" ("
    ++ String.intercalate ", " (t.columns.map (fun c => "[" ++ c.name ++ "]"))
    ++ ") VALUES (?1"
    ++ String.join (((List.range (t.column_count - 1)).map
        (fun i => ", ?" ++ toString (i + 2))))
    ++ ");"

/-- An error from the SQLite store (`rusqlite::Error`), identified by the
index of the execution step that failed. -/
inductive SqliteError where
  | store_err (step : Nat) : SqliteError
deriving DecidableEq, Repr

/-- The committed (or staged) content of the SQLite store: table name to
inserted rows, in creation order. -/
abbrev Store := List (String × List (List SqlValue))

/-- Look a table's rows up by name (first match). -/
def Store.lookup (s : Store) (n : String) : Option (List (List SqlValue)) :=
  match s with
  | [] => none
  | p :: rest => if p.1 = n then some p.2 else Store.lookup rest n

/-- Effect of executing `CREATE TABLE IF NOT EXISTS`: add an empty table
unless the name already exists. -/
def Store.create_if_not_exists (s : Store) (n : String) : Store :=
  if s.any (fun p => p.1 = n) then s else s ++ [(n, [])]

/-- Effect of executing the INSERT statement once: append one row to the
named table. -/
def Store.insert_row (s : Store) (n : String) (row : List SqlValue) : Store :=
  s.map (fun p => if p.1 = n then (p.1, p.2 ++ [row]) else p)

/-- The failure oracle: which execution steps (connection open, BEGIN,
CREATE, prepare, each row INSERT, COMMIT, numbered in order) the
environment makes fail. -/
structure ExportEnv where
  fails : Nat → Bool

/-- The inner row loop of `try_export_db`: stream every row of one table
through `SqliteVal::to_sql` into the staged store, one `stmt.execute` step
per row; stop at the first store error. -/
def run_rows (env : ExportEnv) (step : Nat) (tname : String)
    (rows : List Row) (st : Store) : Except SqliteError (Store × Nat) :=
  match rows with
  | [] => Except.ok (st, step)
  | r :: rest =>
    if env.fails step then Except.error (SqliteError.store_err step)
    else run_rows env (step + 1) tname rest (st.insert_row tname (bind_row r))

/-- The table loop of `try_export_db`: for each table build the two query
strings (panicking on an unrecognized column kind), execute the CREATE,
prepare the INSERT, then stream the rows.  `none` models the panic. -/
def run_tables (env : ExportEnv) (step : Nat) (tables : List Table)
    (st : Store) : Option (Except SqliteError (Store × Nat)) :=
  match tables with
  | [] => some (Except.ok (st, step))
  | t :: rest =>
    match create_query t with
    | none => none
    | some _ =>
      if env.fails step then some (Except.error (SqliteError.store_err step))
      else
        let st1 := st.create_if_not_exists t.name
        if env.fails (step + 1) then
          some (Except.error (SqliteError.store_err (step + 1)))
        else
          match run_rows env (step + 2) t.name t.rows st1 with
          | Except.error e => some (Except.error e)
          | Except.ok (st2, step2) => run_tables env step2 rest st2

/-- `try_export_db` in `main.rs`, seen through its effect on the committed
store.  `init` is the content of the target file when the connection is
opened.  Step 0 is `Connection::open`, step 1 is `BEGIN`; every error
returns early through `?`, so `COMMIT` never runs and dropping the
connection rolls the open transaction back: the committed store is `init`
again.  Only the final `COMMIT` publishes the staged store.  `none` models
the `panic!()` on an unrecognized column kind (the process dies with the
transaction uncommitted). -/
def try_export_db (db : Database) (env : ExportEnv) (init : Store) :
    Option (Except SqliteError Unit × Store) :=
  if env.fails 0 then some (Except.error (SqliteError.store_err 0), init)
  else if env.fails 1 then some (Except.error (SqliteError.store_err 1), init)
  else
    match run_tables env 2 db.tables init with
    | none => none
    | some (Except.error e) => some (Except.error e, init)
    | some (Except.ok (staged, step)) =>
      if env.fails step then
        some (Except.error (SqliteError.store_err step), init)
      else
        some (Except.ok (), staged)

/-! ## Concrete inputs used to witness the theorems -/

/-- Modelled from the spec: the scan count predicted by the claim that the
page window "stops scanning once end is reached or the iterator is
exhausted" and "returns the count of rows actually scanned (including
skipped ones)": under an early stop at `stop`, the rows scanned are the
first `min length stop` ones. -/
def claimed_scan_count (t : Table) (r : Range) : Nat :=
  min t.rows.length r.stop

/-- A two-row, one-column table. -/
def two_rows_table : Table :=
  { name := "Two"
    columns := [{ name := "id", value_type := ValueType.Integer }]
    rows := [{ fields := [Field.Integer 10] }, { fields := [Field.Integer 20] }] }

/-- The spec's scenario table `"Users"`: 3 rows, integer id and text name. -/
def demo_users : Table :=
  { name := "Users"
    columns := [{ name := "id", value_type := ValueType.Integer },
                { name := "name", value_type := ValueType.Text }]
    rows := [{ fields := [Field.Integer 1, Field.Text { decoded := "alice" }] },
             { fields := [Field.Integer 2, Field.Text { decoded := "bob" }] },
             { fields := [Field.Integer 3, Field.Text { decoded := "eve" }] }] }

/-- The spec's scenario table `"Items"`: 0 rows, 1 column. -/
def demo_items : Table :=
  { name := "Items"
    columns := [{ name := "what", value_type := ValueType.Text }]
    rows := [] }

/-- The spec's scenario database with tables `"Users"` and `"Items"`. -/
def demo_db : Database := { tables := [demo_users, demo_items] }

/-- An environment in which no store operation fails. -/
def env_ok : ExportEnv := { fails := fun _ => false }

/-- An environment in which execution step 2 (the first CREATE) fails. -/
def env_fail2 : ExportEnv := { fails := fun n => n == 2 }

/-- A pre-existing target store (the export target file may already have
content). -/
def demo_init : Store := [("Old", [[SqlValue.Integer 7]])]

/-- The committed store a fully successful export of `demo_db` produces. -/
def demo_export_store : Store :=
  [("Users", [[SqlValue.Integer 1, SqlValue.Text "alice"],
              [SqlValue.Integer 2, SqlValue.Text "bob"],
              [SqlValue.Integer 3, SqlValue.Text "eve"]]),
   ("Items", [])]

/-- A table with exactly 2500 iterable rows. -/
def big_table : Table :=
  { name := "Big", columns := [], rows := List.replicate 2500 { fields := [] } }

/-- A one-column varchar table. -/
def vchar_table : Table :=
  { name := "T"
    columns := [{ name := "v", value_type := ValueType.VarChar }]
    rows := [] }

/-- A row with an absent field between two present ones. -/
def demo_gap_row : Row :=
  { fields := [Field.Integer 1, Field.Nothing, Field.Text { decoded := "x" }] }

/-- A UI state before any paging state has been set. -/
def demo_ui_state : UIState :=
  { db := demo_db
    paging := none
    page := none
    button_box_paging_visible := false
    label_page := ""
    button_next_sensitive := false
    button_previous_sensitive := false }

/-! ## Helper lemmas about the row window -/

lemma Range.contains_iff (r : Range) (n : Nat) :
    r.contains n = true ↔ (r.start ≤ n ∧ n < r.stop) := by
  simp [Range.contains]

lemma display_loop_count (r : Range) (rows : List Row) :
    ∀ (count : Nat) (acc : List StoreRow),
      (display_loop r rows count acc).2 = count + rows.length := by
  induction rows with
  | nil => intro count acc; simp [display_loop]
  | cons row rest ih =>
    intro count acc
    simp only [display_loop]
    by_cases h : r.contains count = true
    · rw [if_pos h, ih]; simp [List.length_cons]; omega
    · rw [if_neg h, ih]; simp [List.length_cons]; omega

lemma display_loop_emit (r : Range) (rows : List Row) :
    ∀ (count : Nat) (acc : List StoreRow), r.start ≤ count →
      (display_loop r rows count acc).1
        = acc ++ (rows.take (r.stop - count)).map displayRow := by
  induction rows with
  | nil => intro count acc h; simp [display_loop]
  | cons row rest ih =>
    intro count acc h
    simp only [display_loop]
    by_cases hc : count < r.stop
    · have hcont : r.contains count = true :=
        (Range.contains_iff r count).mpr ⟨h, hc⟩
      rw [if_pos hcont, ih (count + 1) _ (by omega)]
      have hstop : r.stop - count = (r.stop - (count + 1)) + 1 := by omega
      rw [hstop, List.take_succ_cons]
      simp
    · have hcont : ¬ (r.contains count = true) := fun hh =>
        hc ((Range.contains_iff r count).mp hh).2
      rw [if_neg hcont, ih (count + 1) _ (by omega)]
      have h1 : r.stop - count = 0 := by omega
      have h2 : r.stop - (count + 1) = 0 := by omega
      rw [h1, h2]
      simp

lemma display_loop_drop (r : Range) (rows : List Row) :
    ∀ (count : Nat) (acc : List StoreRow), count ≤ r.start →
      (display_loop r rows count acc).1
        = acc ++ ((rows.drop (r.start - count)).take (r.stop - r.start)).map
            displayRow := by
  induction rows with
  | nil => intro count acc h; simp [display_loop]
  | cons row rest ih =>
    intro count acc h
    by_cases heq : count = r.start
    · rw [display_loop_emit r (row :: rest) count acc (heq ▸ le_refl count),
        ← heq]
      simp [Nat.sub_self]
    · have hlt : count < r.start := by omega
      have hcont : ¬ (r.contains count = true) := fun hh => by
        have := ((Range.contains_iff r count).mp hh).1
        omega
      simp only [display_loop]
      rw [if_neg hcont, ih (count + 1) _ (by omega)]
      have hdrop : r.start - count = (r.start - (count + 1)) + 1 := by omega
      rw [hdrop, List.drop_succ_cons]

lemma display_table_rows (s : TreeStore) (c : Nat) (t : Table) (r : Range) :
    (display_table s c t r).1.rows = windowRows t r := by
  show (display_loop r t.rows 0 []).1 = windowRows t r
  rw [display_loop_drop r t.rows 0 [] (Nat.zero_le _)]
  simp [windowRows]

lemma display_table_count (s : TreeStore) (c : Nat) (t : Table) (r : Range) :
    (display_table s c t r).2 = t.rows.length := by
  show (display_loop r t.rows 0 []).2 = t.rows.length
  rw [display_loop_count]
  omega

lemma flatten_take_windows {α : Type} (l : List α) (p : Nat) (N : Nat) :
    ((List.range N).map (fun k => (l.drop (k * p)).take p)).flatten
      = l.take (N * p) := by
  induction N with
  | zero => simp
  | succ n ih =>
    rw [List.range_succ, List.map_append, List.flatten_append, ih,
      Nat.succ_mul, List.take_add]
    simp

/-! ## Helper lemmas about the field materializer and per-row display -/

lemma fromField_eq_none_iff (f : Field) :
    RefField.fromField f = none ↔ f = Field.Nothing := by
  cases f <;> simp [RefField.fromField]

lemma collect_fields_values (fs : List Field) :
    ∀ i, (collect_fields i fs).map Prod.snd = fs.filterMap RefField.fromField := by
  induction fs with
  | nil => intro i; simp [collect_fields]
  | cons f rest ih =>
    intro i
    cases hf : RefField.fromField f with
    | none => simp [collect_fields, hf, List.filterMap_cons, ih]
    | some r => simp [collect_fields, hf, List.filterMap_cons, ih]

lemma filterMap_fromField_length_lt (fs : List Field)
    (h : Field.Nothing ∈ fs) :
    (fs.filterMap RefField.fromField).length < fs.length := by
  induction fs with
  | nil => cases h
  | cons f rest ih =>
    rcases List.mem_cons.mp h with h1 | h2
    · subst h1
      simp only [List.filterMap_cons, RefField.fromField, List.length_cons]
      exact Nat.lt_succ_of_le (List.length_filterMap_le _ _)
    · cases hf : RefField.fromField f with
      | none =>
        simp only [List.filterMap_cons, hf, List.length_cons]
        exact Nat.lt_succ_of_lt (ih h2)
      | some r =>
        simp only [List.filterMap_cons, hf, List.length_cons]
        exact Nat.succ_lt_succ (ih h2)

lemma collect_fields_mem (fs : List Field) :
    ∀ i j r, (j, r) ∈ collect_fields i fs →
      i ≤ j ∧ ∃ f, fs.get? (j - i) = some f ∧ RefField.fromField f = some r := by
  induction fs with
  | nil => intro i j r h; simp [collect_fields] at h
  | cons f rest ih =>
    intro i j r h
    cases hf : RefField.fromField f with
    | none =>
      rw [collect_fields, hf] at h
      obtain ⟨hij, f2, hget, hfrom⟩ := ih (i + 1) j r h
      refine ⟨by omega, f2, ?_, hfrom⟩
      have hji : j - i = (j - (i + 1)) + 1 := by omega
      rw [hji, List.get?_cons_succ]
      exact hget
    | some r0 =>
      rw [collect_fields, hf] at h
      rcases List.mem_cons.mp h with h1 | h2
      · have hj : j = i ∧ r = r0 := by
          constructor <;> [exact congrArg Prod.fst h1; exact congrArg Prod.snd h1]
        obtain ⟨hj1, hj2⟩ := hj
        subst hj1; subst hj2
        exact ⟨le_refl _, f, by simp [Nat.sub_self], hf⟩
      · obtain ⟨hij, f2, hget, hfrom⟩ := ih (i + 1) j r h2
        refine ⟨by omega, f2, ?_, hfrom⟩
        have hji : j - i = (j - (i + 1)) + 1 := by omega
        rw [hji, List.get?_cons_succ]
        exact hget

/-! ## Helper lemmas about the SQLite store model and the export loop -/

lemma Store.lookup_append (s t : Store) (m : String) :
    (s ++ t).lookup m
      = match s.lookup m with
        | some r => some r
        | none => t.lookup m := by
  induction s with
  | nil => simp [Store.lookup]
  | cons p rest ih =>
    by_cases hp : p.1 = m
    · simp [Store.lookup, hp]
    · simp [Store.lookup, hp, ih]

lemma lookup_none_any_false (s : Store) (n : String)
    (h : s.lookup n = none) : s.any (fun p => p.1 = n) = false := by
  induction s with
  | nil => rfl
  | cons p rest ih =>
    by_cases hp : p.1 = n
    · simp [Store.lookup, hp] at h
    · simp only [Store.lookup, if_neg hp] at h
      simp [List.any_cons, hp, ih h]

lemma lookup_create_self_none (s : Store) (n : String)
    (h : s.lookup n = none) :
    (s.create_if_not_exists n).lookup n = some [] := by
  unfold Store.create_if_not_exists
  rw [if_neg (by simp [lookup_none_any_false s n h])]
  rw [Store.lookup_append, h]
  simp [Store.lookup]

lemma lookup_create_ne (s : Store) (n m : String) (hne : m ≠ n) :
    (s.create_if_not_exists n).lookup m = s.lookup m := by
  unfold Store.create_if_not_exists
  by_cases h : s.any (fun p => p.1 = n) = true
  · rw [if_pos h]
  · rw [if_neg h, Store.lookup_append]
    cases hl : s.lookup m with
    | some r => rfl
    | none =>
      show Store.lookup [(n, [])] m = none
      simp only [Store.lookup]
      rw [if_neg (fun hn : n = m => hne hn.symm)]

lemma lookup_insert_self (n : String) (row : List SqlValue) :
    ∀ (s : Store) (rs : List (List SqlValue)), s.lookup n = some rs →
      (s.insert_row n row).lookup n = some (rs ++ [row]) := by
  intro s
  induction s with
  | nil => intro rs h; simp [Store.lookup] at h
  | cons p rest ih =>
    intro rs h
    by_cases hp : p.1 = n
    · simp only [Store.lookup, if_pos hp] at h
      cases h
      simp [Store.insert_row, Store.lookup, hp]
    · simp only [Store.lookup, if_neg hp] at h
      simp only [Store.insert_row, List.map_cons, if_neg hp]
      simp only [Store.lookup, if_neg hp]
      exact ih rs h

lemma lookup_insert_ne (n m : String) (hne : m ≠ n) (row : List SqlValue) :
    ∀ (s : Store), (s.insert_row n row).lookup m = s.lookup m := by
  intro s
  induction s with
  | nil => rfl
  | cons p rest ih =>
    by_cases hp : p.1 = n
    · have hpm : ¬ (p.1 = m) := fun hh => hne (hh ▸ hp ▸ rfl)
      simp only [Store.insert_row, List.map_cons, if_pos hp]
      simp only [Store.lookup, if_neg hpm]
      exact ih
    · simp only [Store.insert_row, List.map_cons, if_neg hp]
      by_cases hpm : p.1 = m
      · simp [Store.lookup, hpm]
      · simp only [Store.lookup, if_neg hpm]
        exact ih

lemma lookup_foldl_insert (n : String) (rows : List Row) :
    ∀ (st : Store) (rs : List (List SqlValue)), st.lookup n = some rs →
      (rows.foldl (fun s r => s.insert_row n (bind_row r)) st).lookup n
        = some (rs ++ rows.map bind_row) := by
  induction rows with
  | nil => intro st rs h; simpa using h
  | cons r rest ih =>
    intro st rs h
    simp only [List.foldl_cons, List.map_cons]
    rw [ih _ _ (lookup_insert_self n (bind_row r) st rs h)]
    simp

lemma lookup_foldl_insert_ne (n m : String) (hne : m ≠ n) (rows : List Row) :
    ∀ (st : Store),
      (rows.foldl (fun s r => s.insert_row n (bind_row r)) st).lookup m
        = st.lookup m := by
  induction rows with
  | nil => intro st; rfl
  | cons r rest ih =>
    intro st
    rw [List.foldl_cons, ih, lookup_insert_ne n m hne]

lemma run_rows_ok (env : ExportEnv) (tname : String) (rows : List Row) :
    ∀ (step : Nat) (st st' : Store) (step' : Nat),
      run_rows env step tname rows st = Except.ok (st', step') →
      st' = rows.foldl (fun s r => s.insert_row tname (bind_row r)) st
        ∧ step' = step + rows.length := by
  induction rows with
  | nil =>
    intro step st st' step' h
    simp only [run_rows, Except.ok.injEq, Prod.mk.injEq] at h
    obtain ⟨hst, hstep⟩ := h
    exact ⟨hst.symm, by simpa using hstep.symm⟩
  | cons r rest ih =>
    intro step st st' step' h
    simp only [run_rows] at h
    by_cases hf : env.fails step = true
    · rw [if_pos hf] at h; cases h
    · rw [if_neg hf] at h
      obtain ⟨h1, h2⟩ := ih (step + 1) _ _ _ h
      exact ⟨by simpa using h1, by simp [h2]; omega⟩

lemma run_tables_ok (env : ExportEnv) :
    ∀ (tables : List Table) (step : Nat) (st st' : Store) (step' : Nat),
      run_tables env step tables st = some (Except.ok (st', step')) →
      (∀ m, m ∉ tables.map Table.name → st'.lookup m = st.lookup m) ∧
      ((tables.map Table.name).Nodup →
        (∀ u ∈ tables, st.lookup u.name = none) →
        ∀ t ∈ tables, st'.lookup t.name = some (t.rows.map bind_row)) := by
  intro tables
  induction tables with
  | nil =>
    intro step st st' step' h
    simp [run_tables] at h
    constructor
    · intro m _; rw [h.1]
    · intro _ _ t ht; cases ht
  | cons t rest ih =>
    intro step st st' step' h
    simp only [run_tables] at h
    cases hc : create_query t with
    | none => rw [hc] at h; cases h
    | some q =>
      rw [hc] at h
      by_cases h0 : env.fails step = true
      · rw [if_pos h0] at h; simp at h
      rw [if_neg h0] at h
      by_cases h1 : env.fails (step + 1) = true
      · rw [if_pos h1] at h; simp at h
      rw [if_neg h1] at h
      cases hr : run_rows env (step + 2) t.name t.rows
          (st.create_if_not_exists t.name) with
      | error e => rw [hr] at h; simp at h
      | ok pr =>
        rw [hr] at h
        obtain ⟨st2, step2⟩ := pr
        simp only at h
        obtain ⟨hst2, -⟩ :=
          run_rows_ok env t.name t.rows (step + 2) _ _ _ hr
        obtain ⟨frame_rest, content_rest⟩ := ih step2 st2 st' step' h
        have hframe : ∀ m, m ≠ t.name → st2.lookup m = st.lookup m := by
          intro m hm
          rw [hst2, lookup_foldl_insert_ne t.name m hm,
            lookup_create_ne st t.name m hm]
        constructor
        · intro m hm
          simp only [List.map_cons, List.mem_cons] at hm
          push_neg at hm
          rw [frame_rest m hm.2, hframe m hm.1]
        · intro hnodup hnone u hu
          simp only [List.map_cons, List.nodup_cons] at hnodup
          obtain ⟨hnotin, hnodup_rest⟩ := hnodup
          have hself : st2.lookup t.name = some (t.rows.map bind_row) := by
            have h00 : st.lookup t.name = none :=
              hnone t (List.mem_cons_self t rest)
            rw [hst2,
              lookup_foldl_insert t.name t.rows _ []
                (lookup_create_self_none st t.name h00)]
            simp
          rcases List.mem_cons.mp hu with h1 | h2
          · subst h1
            rw [frame_rest u.name hnotin, hself]
          · refine content_rest hnodup_rest ?_ u h2
            intro v hv
            have hvne : v.name ≠ t.name := fun he => by
              exact hnotin (he ▸ List.mem_map_of_mem Table.name hv)
            rw [hframe v.name hvne]
            exact hnone v (List.mem_cons_of_mem t hv)

/-! ## Claim theorems -/

/-- C2 (counterexample): the claim predicts that the page-window scan stops
once `end` is reached, so on a 2-row table with range `[0, 1)` the returned
scan count would be 1; `display_table` actually keeps scanning to iterator
exhaustion and returns 2. -/
theorem C2_no_early_stop :
    (display_table { rows := [] } 1 two_rows_table { start := 0, stop := 1 }).2
      ≠ claimed_scan_count two_rows_table { start := 0, stop := 1 } := by
  decide

/-- C2 (amended): for every table and half-open range `[start, stop)`, the
page-window operation scans the row iterator from the beginning, emits
exactly the rows with index in `[start, stop)` in order, does not stop when
`stop` is reached but scans the whole iterator, and returns the total
number of rows scanned, i.e. the full iterator length. -/
theorem C2_window_scan (store : TreeStore) (col_count : Nat) (t : Table)
    (r : Range) :
    (display_table store col_count t r).1.rows = windowRows t r ∧
    (display_table store col_count t r).2 = t.rows.length :=
  ⟨display_table_rows store col_count t r, display_table_count store col_count t r⟩

/-- C9: every call to `display_table` first clears the destination grid
store: the result does not depend on the previous store contents at all,
and afterwards the store holds exactly the grid rows of the requested
range, nothing carried over. -/
theorem C9_store_cleared (s1 s2 : TreeStore) (c1 c2 : Nat) (t : Table)
    (r : Range) :
    (display_table s1 c1 t r).1 = (display_table s2 c2 t r).1 ∧
    (display_table s1 c1 t r).1.rows = windowRows t r :=
  ⟨rfl, display_table_rows s1 c1 t r⟩

/-- C6: concatenating the rows emitted by the page windows
`[0, 1024), [1024, 2048), ...` up to `num_pages` (as computed from the
initial scan) reproduces exactly the sequence a single full-table scan
produces, in order, with no duplicates or omissions. -/
theorem C6_paging_complete (s : TreeStore) (c : Nat) (t : Table) :
    ((List.range
        ((display_table s c t { start := 0, stop := 1024 }).2 / 1024 + 1)).map
          (fun k => (display_table s c t
            { start := k * 1024, stop := k * 1024 + 1024 }).1.rows)).flatten
      = (display_table s c t { start := 0, stop := t.rows.length }).1.rows := by
  have hw : ∀ k : Nat,
      (display_table s c t
          { start := k * 1024, stop := k * 1024 + 1024 }).1.rows
        = ((t.rows.map displayRow).drop (k * 1024)).take 1024 := by
    intro k
    rw [display_table_rows]
    unfold windowRows
    show ((t.rows.drop (k * 1024)).take (k * 1024 + 1024 - (k * 1024))).map
        displayRow = ((t.rows.map displayRow).drop (k * 1024)).take 1024
    rw [Nat.add_sub_cancel_left, List.map_take, List.map_drop]
  rw [display_table_count]
  calc ((List.range (t.rows.length / 1024 + 1)).map
          (fun k => (display_table s c t
            { start := k * 1024, stop := k * 1024 + 1024 }).1.rows)).flatten
      = ((List.range (t.rows.length / 1024 + 1)).map
          (fun k => ((t.rows.map displayRow).drop (k * 1024)).take 1024)).flatten := by
        simp only [hw]
    _ = (t.rows.map displayRow).take ((t.rows.length / 1024 + 1) * 1024) :=
        flatten_take_windows (t.rows.map displayRow) 1024 (t.rows.length / 1024 + 1)
    _ = t.rows.map displayRow := by
        apply List.take_of_length_le
        rw [List.length_map]
        omega
    _ = (display_table s c t { start := 0, stop := t.rows.length }).1.rows := by
        rw [display_table_rows]
        unfold windowRows
        simp

/-- C5: after selecting a table, `num_pages = max_row_seen / 1024 + 1`
where `max_row_seen` is the count returned by the initial scan (which is
the full iterable row count); for a table with exactly 2500 iterable rows
this gives `num_pages = 3`. -/
theorem C5_page_count (t : Table) (h : t.rows.length = 2500) :
    (display_table { rows := [] } t.column_count t
        { start := 0, stop := 1024 }).2 = t.rows.length ∧
    (select_table_paging t).1.num_pages = t.rows.length / 1024 + 1 ∧
    (select_table_paging t).1.num_pages = 3 := by
  refine ⟨display_table_count _ _ _ _, ?_, ?_⟩
  · show (display_table { rows := [] } t.column_count t
        { start := 0, stop := 1024 }).2 / 1024 + 1 = t.rows.length / 1024 + 1
    rw [display_table_count]
  · show (display_table { rows := [] } t.column_count t
        { start := 0, stop := 1024 }).2 / 1024 + 1 = 3
    rw [display_table_count, h]

/-- Witness for C5 at a concrete 2500-row table. -/
theorem C5_page_count_witness :
    big_table.rows.length = 2500 ∧
    (select_table_paging big_table).1.num_pages = 3 :=
  ⟨by
    rw [show big_table.rows = List.replicate 2500 { fields := [] } from rfl]
    exact List.length_replicate 2500 _,
   (C5_page_count big_table (by
      rw [show big_table.rows = List.replicate 2500 { fields := [] } from rfl]
      exact List.length_replicate 2500 _)).2.2⟩

/-- C3 (counterexample): for a table with one varchar column `v`, the
generated CREATE TABLE statement declares the column `BLOB`, not `TEXT` as
the claim states. -/
theorem C3_varchar_declared_blob :
    create_query vchar_table
        = some "CREATE TABLE IF NOT EXISTS \"T\"\n(\n    [v] BLOB);" ∧
    create_query vchar_table
        ≠ some "CREATE TABLE IF NOT EXISTS \"T\"\n(\n    [v] TEXT);" := by
  constructor
  · rfl
  · decide

/-- C3 (amended): a varchar column is declared with relational column type
`BLOB` in the generated CREATE TABLE statement, while the value bound on
insert is a TEXT value (the decoded owned string) — the inconsistency the
spec flags in its section 9. -/
theorem C3_varchar_mapping (col : Column)
    (h : col.value_type = ValueType.VarChar) :
    sql_type col.value_type = some "BLOB" ∧
    column_decl col = some ("    [" ++ col.name ++ "] " ++ "BLOB") ∧
    ∀ s, SqliteVal.to_sql (Field.VarChar s) = SqlValue.Text s.decode := by
  refine ⟨?_, ?_, fun s => rfl⟩
  · rw [h]
    rfl
  · simp [column_decl, h, sql_type]

/-- Witness for the amended C3 at a concrete varchar column. -/
theorem C3_varchar_mapping_witness :
    ({ name := "v", value_type := ValueType.VarChar } : Column).value_type
        = ValueType.VarChar ∧
    column_decl { name := "v", value_type := ValueType.VarChar }
        = some ("    [" ++ "v" ++ "] " ++ "BLOB") :=
  ⟨rfl, (C3_varchar_mapping { name := "v", value_type := ValueType.VarChar } rfl).2.1⟩

/-- C8: the field materializer preserves the tagged shape: each present
borrowed field maps to the owned value of the same tag (text-bearing
variants fully decoded into owned strings), and an absent field
materializes to nothing — `none` for display and SQL `NULL` for export
binding. -/
theorem C8_materializer_shape :
    (RefField.fromField Field.Nothing = none
      ∧ SqliteVal.to_sql Field.Nothing = SqlValue.Null) ∧
    (∀ i, RefField.fromField (Field.Integer i) = some (RefField.Integer i)) ∧
    (∀ f, RefField.fromField (Field.Float f) = some (RefField.Float f)) ∧
    (∀ b, RefField.fromField (Field.Boolean b) = some (RefField.Boolean b)) ∧
    (∀ i, RefField.fromField (Field.BigInt i) = some (RefField.BigInt i)) ∧
    (∀ s, RefField.fromField (Field.Text s) = some (RefField.Text s.decode)) ∧
    (∀ s, RefField.fromField (Field.VarChar s) = some (RefField.VarChar s.decode)) :=
  ⟨⟨rfl, rfl⟩, fun _ => rfl, fun _ => rfl, fun _ => rfl, fun _ => rfl,
    fun _ => rfl, fun _ => rfl⟩

/-- C10: when a displayed row contains an absent field, `display_table`
binds values only at the column indices of the present fields: the emitted
grid row's value list is the materialization of the present fields only,
indices and values have equal length, that length is strictly below the
column count, and every bound index points at a present field. -/
theorem C10_absent_fields_skipped (row : Row) (col_count : Nat)
    (hlen : row.fields.length = col_count)
    (hn : Field.Nothing ∈ row.fields) :
    (displayRow row).values = row.fields.filterMap RefField.fromField ∧
    (displayRow row).indices.length = (displayRow row).values.length ∧
    (displayRow row).values.length < col_count ∧
    ∀ j ∈ (displayRow row).indices, row.fields.get? j ≠ some Field.Nothing := by
  have hvals : (displayRow row).values
      = row.fields.filterMap RefField.fromField :=
    collect_fields_values row.fields 0
  refine ⟨hvals, ?_, ?_, ?_⟩
  · simp [displayRow]
  · rw [hvals, ← hlen]
    exact filterMap_fromField_length_lt row.fields hn
  · intro j hj hcontra
    simp only [displayRow, List.mem_map] at hj
    obtain ⟨⟨j2, r⟩, hmem, hfst⟩ := hj
    cases hfst
    obtain ⟨-, f, hget, hfrom⟩ := collect_fields_mem row.fields 0 j2 r hmem
    rw [Nat.sub_zero] at hget
    rw [hcontra] at hget
    cases hget
    simp [RefField.fromField] at hfrom

/-- Witness for C10 at a row with an absent middle field. -/
theorem C10_absent_fields_skipped_witness :
    demo_gap_row.fields.length = 3 ∧
    Field.Nothing ∈ demo_gap_row.fields ∧
    (displayRow demo_gap_row).values.length < 3 :=
  ⟨by decide, by decide,
    (C10_absent_fields_skipped demo_gap_row 3 (by decide) (by decide)).2.2.1⟩

/-- C1: the export runs all tables inside one transaction, all-or-nothing:
whenever `try_export_db` reports a failure (of `BEGIN`, of a CREATE, of a
prepare, of any row INSERT, or of `COMMIT`), it returns a structured error
to its caller and the committed target store is exactly what it was before
the export — the transaction was discarded, no inserted row is visible. -/
theorem C1_export_atomic (db : Database) (env : ExportEnv) (init : Store)
    (e : SqliteError) (s : Store)
    (h : try_export_db db env init = some (Except.error e, s)) :
    s = init := by
  unfold try_export_db at h
  by_cases h0 : env.fails 0 = true
  · rw [if_pos h0] at h
    simp at h
    exact h.2.symm
  rw [if_neg h0] at h
  by_cases h1 : env.fails 1 = true
  · rw [if_pos h1] at h
    simp at h
    exact h.2.symm
  rw [if_neg h1] at h
  cases hrt : run_tables env 2 db.tables init with
  | none => rw [hrt] at h; cases h
  | some res =>
    rw [hrt] at h
    cases res with
    | error e2 =>
      simp only [Option.some.injEq, Prod.mk.injEq] at h
      exact h.2.symm
    | ok pr =>
      obtain ⟨staged, step⟩ := pr
      simp only at h
      by_cases hc : env.fails step = true
      · rw [if_pos hc] at h
        simp at h
        exact h.2.symm
      · rw [if_neg hc] at h
        simp at h

/-- Witness for C1: on the two-table demo database with a store environment
that fails at step 2 (the first CREATE), the export returns a structured
error and the pre-existing committed store is untouched. -/
theorem C1_export_atomic_witness :
    try_export_db demo_db env_fail2 demo_init
        = some (Except.error (SqliteError.store_err 2), demo_init) ∧
    demo_init = demo_init :=
  ⟨by rfl,
    C1_export_atomic demo_db env_fail2 demo_init (SqliteError.store_err 2)
      demo_init (by rfl)⟩

/-- C4: for every paging state installed through `set_paging`, a
previous-page click at page 0 is a no-op (no crash, state unchanged — the
button is insensitive, so GTK never runs the handler), and a next-page
click at the last page (`current + 1 = num_pages`) is likewise a no-op. -/
theorem C4_boundary_noop (st0 : UIState) (p : Paging) :
    (p.current = 0 →
      button_previous_click (set_paging st0 (some p))
        = some (set_paging st0 (some p))) ∧
    (p.current + 1 = p.num_pages →
      button_next_click (set_paging st0 (some p))
        = some (set_paging st0 (some p))) := by
  constructor
  · intro h
    unfold button_previous_click
    have hs : (set_paging st0 (some p)).button_previous_sensitive = false := by
      simp [set_paging, h]
    rw [hs]
    simp
  · intro h
    unfold button_next_click
    have hs : (set_paging st0 (some p)).button_next_sensitive = false := by
      simp [set_paging, ← h]
    rw [hs]
    simp

/-- Witness for C4 at a concrete one-page state (page 0 is also the last
page, so both boundary clicks apply). -/
theorem C4_boundary_noop_witness :
    button_previous_click
        (set_paging demo_ui_state (some { num_pages := 1, current := 0 }))
      = some (set_paging demo_ui_state (some { num_pages := 1, current := 0 })) ∧
    button_next_click
        (set_paging demo_ui_state (some { num_pages := 1, current := 0 }))
      = some (set_paging demo_ui_state (some { num_pages := 1, current := 0 })) :=
  ⟨(C4_boundary_noop demo_ui_state { num_pages := 1, current := 0 }).1 rfl,
   (C4_boundary_noop demo_ui_state { num_pages := 1, current := 0 }).2 rfl⟩

/-- C7: export completeness — when `try_export_db` into an empty store
succeeds and the database's table names are distinct, every table of the
database appears in the committed target store with exactly its source
rows, each row being the fields materialized through `SqliteVal::to_sql`
in column order, and the target row count equals the scanned source row
count. -/
theorem C7_export_complete (db : Database) (env : ExportEnv) (s : Store)
    (t : Table) (hnodup : (db.tables.map Table.name).Nodup)
    (ht : t ∈ db.tables)
    (hok : try_export_db db env [] = some (Except.ok (), s)) :
    s.lookup t.name = some (t.rows.map bind_row) ∧
    (t.rows.map bind_row).length = t.rows.length := by
  refine ⟨?_, List.length_map t.rows bind_row⟩
  unfold try_export_db at hok
  by_cases h0 : env.fails 0 = true
  · rw [if_pos h0] at hok; simp at hok
  rw [if_neg h0] at hok
  by_cases h1 : env.fails 1 = true
  · rw [if_pos h1] at hok; simp at hok
  rw [if_neg h1] at hok
  cases hrt : run_tables env 2 db.tables [] with
  | none => rw [hrt] at hok; cases hok
  | some res =>
    rw [hrt] at hok
    cases res with
    | error e2 => simp at hok
    | ok pr =>
      obtain ⟨staged, step⟩ := pr
      simp only at hok
      by_cases hc : env.fails step = true
      · rw [if_pos hc] at hok; simp at hok
      · rw [if_neg hc] at hok
        simp only [Option.some.injEq, Prod.mk.injEq] at hok
        obtain ⟨-, hs⟩ := hok
        obtain ⟨-, hcontent⟩ := run_tables_ok env db.tables 2 [] staged step hrt
        rw [← hs]
        exact hcontent hnodup (fun u _ => rfl) t ht

/-- Witness for C7: exporting the spec's scenario database in a
failure-free environment yields a store whose `"Users"` table holds the
three materialized source rows. -/
theorem C7_export_complete_witness :
    (demo_db.tables.map Table.name).Nodup ∧
    demo_users ∈ demo_db.tables ∧
    try_export_db demo_db env_ok [] = some (Except.ok (), demo_export_store) ∧
    demo_export_store.lookup demo_users.name
      = some (demo_users.rows.map bind_row) :=
  ⟨by decide, by decide, by rfl,
    (C7_export_complete demo_db env_ok demo_export_store demo_users
      (by decide) (by decide) (by rfl)).1⟩

end FdbViewer
